import Mathlib

/-!
# Verification of the paper-animate timeline / keyframe / script-repair core

Shallow embedding of the presentation-timeline core of the repository:

* `src/src/lib/three-scene.ts` — the `TimelineController` class (time → state
  mapping, tick loop, transport controls), embedded over `ℚ` (JavaScript
  numbers modelled as exact rationals; every operation used is rational).
* The script repair path of the Gemini analysis module
  (`src/unnamed/part_002`) — `alignSegmentsToSteps` and its helpers,
  embedded over `ℚ` and Lean `String`s.
* `src/src/lib/keyframes.ts` — the keyframe interpolation engine, embedded
  generically over a linear ordered field so that rational instances stay
  decidable while the GSAP easing curves (external library code) are
  instantiated over `ℝ`.

JavaScript `undefined` for optional fields is modelled with `Option`;
a JavaScript runtime `TypeError` (reading a field of `undefined`) is
modelled by an `Option` result (`none` = crash).
-/

namespace PaperAnimate

/-! ## String helpers shared by the repair module

These model the JavaScript string idioms of `src/unnamed/part_002`:
`replace(/\s+/g, ' ')`, `trim()`, `split(/\s+/)`, `split(/(?<=[.!?])\s+/)`
and `replace(/[^a-zA-Z0-9-]/g, '')`.  JS `\s` is modelled by
`Char.isWhitespace`.
-/

/-- One step of `replace(/\s+/g, ' ')` on a character list: each maximal
whitespace run collapses to a single space.  `prevWS` records whether the
previous character was part of a whitespace run. -/
def squeezeAux : Bool → List Char → List Char
  | _, [] => []
  | prevWS, c :: cs =>
    if c.isWhitespace then
      if prevWS then squeezeAux true cs else ' ' :: squeezeAux true cs
    else c :: squeezeAux false cs

/-- JavaScript `s.replace(/\s+/g, ' ')` on a character list. -/
def squeeze (l : List Char) : List Char := squeezeAux false l

/-- JavaScript `s.trim()` on a character list (drops leading and trailing
whitespace). -/
def trimChars (l : List Char) : List Char :=
  ((l.dropWhile Char.isWhitespace).reverse.dropWhile Char.isWhitespace).reverse

/-- `replace(/\s+/g, ' ').trim()` as used throughout `part_002`. -/
def collapseTrim (s : String) : String := ⟨trimChars (squeeze s.data)⟩

/-- Generic model of JavaScript `String.split` against a separator regex of
shape `X\s+` where `X` is a (look-behind) condition on the character right
before the whitespace run.  `p` receives the previous accumulated character
(if any); state `none` means we are inside a separator run, `some acc` means
we are accumulating a chunk (in reverse). -/
def splitRunsAux (p : Option Char → Bool) : Option (List Char) → List Char → List (List Char)
  | none, [] => [[]]
  | some acc, [] => [acc.reverse]
  | none, c :: cs =>
    if c.isWhitespace then splitRunsAux p none cs
    else splitRunsAux p (some [c]) cs
  | some acc, c :: cs =>
    if c.isWhitespace && p acc.head? then acc.reverse :: splitRunsAux p none cs
    else splitRunsAux p (some (c :: acc)) cs

/-- JavaScript `s.split(/\s+/)`. -/
def wsSplit (s : String) : List String :=
  (splitRunsAux (fun _ => true) (some []) s.data).map fun l => ⟨l⟩

/-- Is this character one of the sentence terminators `.`, `!`, `?`. -/
def isSentencePunct (c : Char) : Bool := c = '.' || c = '!' || c = '?'

/-- JavaScript `s.split(/(?<=[.!?])\s+/)`: split on whitespace runs whose
preceding character is sentence punctuation. -/
def sentenceSplit (s : String) : List String :=
  (splitRunsAux (fun prev => (prev.map isSentencePunct).getD false) (some []) s.data).map
    fun l => ⟨l⟩

/-- `splitIntoSentences` from `src/unnamed/part_002` (lines 419–425). -/
def splitIntoSentences (text : String) : List String :=
  if text = "" then []
  else ((sentenceSplit text).map collapseTrim).filter (fun s => s ≠ "")

/-- JavaScript `charAt(0).toUpperCase() + slice(1)` on a character list. -/
def capitalizeChars : List Char → List Char
  | [] => []
  | c :: cs => c.toUpper :: cs

/-- Does the string end in `.`, `!` or `?` (the `/[.!?]$/` test). -/
def endsWithPunct (l : List Char) : Bool :=
  (l.getLast?.map isSentencePunct).getD false

/-- `ensureSentence` from `src/unnamed/part_002` (lines 427–435). -/
def ensureSentence (text : String) : String :=
  let trimmed := trimChars (squeeze text.data)
  if trimmed = [] then ""
  else
    let capitalized := capitalizeChars trimmed
    if endsWithPunct capitalized then ⟨capitalized⟩
    else ⟨capitalized ++ ['.']⟩

/-- JavaScript `word.replace(/[^a-zA-Z0-9-]/g, '')`. -/
def wordClean (s : String) : String :=
  ⟨s.data.filter (fun c => c.isAlphanum || c = '-')⟩

/-! ## Data model (`src/src/types/index.ts`)

TypeScript string-literal unions (`pacing`, `phase`, transition `type`) are
modelled as `String`s; optional fields as `Option`; `number` as `ℚ`. -/

/-- A JavaScript value stored in an element's `props` record, as far as the
repair module inspects it: either a string or something else (`other`
covers numbers, objects, arrays — anything failing `typeof x === 'string'`). -/
inductive JSVal where
  | str (s : String)
  | other
  deriving DecidableEq, Repr

/-- `AnimationElement` (types/index.ts lines 104–113), restricted to the
fields the analysed code reads: `type` and the `content` / `label` props. -/
structure AnimationElement where
  type : String
  content : Option JSVal
  label : Option JSVal
  deriving DecidableEq, Repr

/-- `AnimationStep` (types/index.ts lines 92–97). -/
structure AnimationStep where
  id : String
  description : String
  duration : ℚ
  elements : List AnimationElement
  deriving DecidableEq, Repr

/-- `AnimationData` (types/index.ts lines 86–90); `config` is never read by
the repair or timeline code, so only `type` and `steps` are carried. -/
structure AnimationData where
  type : String
  steps : List AnimationStep
  deriving DecidableEq, Repr

/-- `NarrationSegment` (types/index.ts lines 157–166). -/
structure NarrationSegment where
  id : String
  text : String
  stepId : String
  estimatedDuration : ℚ
  startTime : ℚ
  endTime : ℚ
  emphasis : Option (List String)
  pacing : String
  deriving DecidableEq, Repr

/-- `SectionScript` (types/index.ts lines 168–173). -/
structure SectionScript where
  sectionId : String
  fullText : String
  segments : List NarrationSegment
  totalDuration : ℚ
  deriving DecidableEq, Repr

/-- `SectionTransition` (types/index.ts lines 175–180). -/
structure SectionTransition where
  fromSectionId : String
  toSectionId : String
  type : String
  duration : ℚ
  deriving DecidableEq, Repr

/-- `PresentationScript` (types/index.ts lines 182–187). -/
structure PresentationScript where
  paperTitle : String
  sections : List SectionScript
  transitions : List SectionTransition
  totalDuration : ℚ
  deriving DecidableEq, Repr

/-! ## ScriptRepairer (`src/unnamed/part_002`) -/

/-- `Array.from(new Set(...))`: deduplicate keeping first occurrences
(`seen` accumulates the strings already emitted). -/
def dedupFirst (seen : List String) : List String → List String
  | [] => []
  | x :: xs =>
    if x ∈ seen then dedupFirst seen xs
    else x :: dedupFirst (x :: seen) xs

/-- `extractStepHighlights` (part_002 lines 437–455): collect the cleaned
`content`/`label` strings of highlight-worthy elements.  JS
`props?.content ?? props?.label` takes `content` whenever it is present
(even if not a string — then the `typeof` check fails without falling back
to `label`). -/
def extractStepHighlights (step : AnimationStep) : List String :=
  if step.elements = [] then []
  else
    let focusTypes : List String := ["highlight", "shape", "node", "text"]
    let phrases := step.elements.filterMap fun element =>
      if focusTypes.contains element.type then
        match (match element.content with
               | some v => some v
               | none => element.label) with
        | some (.str s) =>
          let cleaned := collapseTrim s
          if cleaned.length > 0 then some cleaned else none
        | _ => none
      else none
    (dedupFirst [] phrases).take 3

/-- The part of `buildSegmentNarration` (part_002 lines 468–482) that runs
when no usable fallback sentence exists: synthesize from highlights, the
step description, or a generic template. -/
def buildSegmentNarrationCore (step : AnimationStep)
    (sectionConcept sectionTitle : String) (stepIndex : ℕ) : String :=
  let highlights := extractStepHighlights step
  let focusSubject :=
    if sectionConcept ≠ "" then sectionConcept
    else if sectionTitle ≠ "" then sectionTitle
    else "this concept"
  match highlights with
  | [] =>
    if trimChars step.description.data ≠ [] then ensureSentence step.description
    else ensureSentence ("Step " ++ toString (stepIndex + 1) ++
      " deepens the understanding of " ++ focusSubject ++ ".")
  | [h] =>
    ensureSentence ("We spotlight " ++ h ++ " to show how it connects to " ++
      focusSubject ++ ".")
  | h1 :: h2 :: _ =>
    ensureSentence ("We spotlight " ++ h1 ++ " and " ++ h2 ++
      " to show how it connects to " ++ focusSubject ++ ".")

/-- `buildSegmentNarration` (part_002 lines 457–483): a non-empty fallback
sentence wins, else synthesize. -/
def buildSegmentNarration (step : AnimationStep) (fallbackSentence : Option String)
    (sectionConcept sectionTitle : String) (stepIndex : ℕ) : String :=
  match fallbackSentence with
  | some s =>
    if s ≠ "" then ensureSentence s
    else buildSegmentNarrationCore step sectionConcept sectionTitle stepIndex
  | none => buildSegmentNarrationCore step sectionConcept sectionTitle stepIndex

/-- The shared loop body of `buildEmphasis` (part_002 lines 495–516): push
case-insensitively fresh non-empty words, stopping as soon as two are
collected. -/
def emphAdd (emphasis : List String) : List String → List String
  | [] => emphasis
  | w :: ws =>
    let normalized := w.toLower
    let e :=
      if normalized ≠ "" && !(emphasis.any fun x => x.toLower = normalized) then
        emphasis ++ [w]
      else emphasis
    if 2 ≤ e.length then e else emphAdd e ws

/-- `buildEmphasis` (part_002 lines 485–519). -/
def buildEmphasis (step : AnimationStep) (segmentText : String) : List String :=
  let highlightWords :=
    (extractStepHighlights step).flatMap fun phrase =>
      ((wsSplit phrase).map wordClean).filter fun word => word.length > 3
  let e1 := emphAdd [] highlightWords
  if 2 ≤ e1.length then e1.take 2
  else
    let fallbackWords :=
      ((wsSplit segmentText).map wordClean).filter fun word => word.length > 4
    (emphAdd e1 fallbackWords).take 2

/-- `Number(x.toFixed(2))`: round to two decimal places (JS `toFixed`
rounds to nearest, modelled with `round`, i.e. half away from the lower
value). -/
def roundTo2 (q : ℚ) : ℚ := (round (q * 100) : ℤ) / 100

/-- `alignSegmentsToSteps` (part_002 lines 521–568): regenerate a section's
narration segments so that they are in 1:1 correspondence with the
animation steps. -/
def alignSegmentsToSteps (script : SectionScript) (animationData : AnimationData)
    (narration : String) (sectionId sectionTitle sectionConcept : String) : SectionScript :=
  let steps := animationData.steps
  if steps = [] then
    { sectionId := sectionId
      fullText := narration
      segments := script.segments
      totalDuration := 0 }
  else
    let sentences := splitIntoSentences narration
    let segments := steps.enum.map fun p =>
      let index := p.1
      let step := p.2
      let fallbackSentence := sentences.get? index
      let text := buildSegmentNarration step fallbackSentence sectionConcept sectionTitle index
      let wordCount := ((wsSplit text).filter (fun w => w ≠ "")).length
      let estimatedFromWords := max (5/2 : ℚ) (((wordCount : ℚ) / 150) * 60)
      let emphasis := buildEmphasis step text
      { id := "seg-" ++ sectionId ++ "-" ++ toString (index + 1)
        text := text
        stepId := if step.id ≠ "" then step.id
                  else sectionId ++ "-step-" ++ toString (index + 1)
        estimatedDuration := if step.duration ≠ 0 then step.duration
                             else roundTo2 estimatedFromWords
        startTime := 0
        endTime := 0
        emphasis := if emphasis.length > 0 then some emphasis else none
        pacing := "normal" : NarrationSegment }
    { sectionId := sectionId
      fullText := String.intercalate " " (segments.map fun seg => seg.text)
      segments := segments
      totalDuration := 0 }

/-! ## Timeline (`src/src/lib/three-scene.ts`, lines 670–899)

`TimelineController` is a class with mutable private fields; it is embedded
as a record, with each method a function from (and, for mutators, to) the
record.  `requestAnimationFrame` handles are opaque tokens (`Option ℕ`),
listeners are opaque tokens (`List ℕ` — `seek`/`tick` never inspect them),
and a notification is the `TimelineState` passed to every listener.
`sectionIndex` is `ℤ` because the complete state reports
`sections.length - 1`, which is `-1` for an empty script. -/

/-- `TimelineState` (types/index.ts lines 189–202). -/
structure TimelineState where
  phase : String
  sectionIndex : ℤ
  segmentIndex : ℕ
  sectionProgress : ℚ
  segmentProgress : ℚ
  activeStepId : String
  currentText : String
  emphasis : List String
  globalTime : ℚ
  fromSection : Option ℕ
  toSection : Option ℕ
  transitionProgress : Option ℚ
  deriving DecidableEq, Repr

/-- `COMPLETE_STATE` (three-scene.ts lines 679–689). -/
def COMPLETE_STATE : TimelineState :=
  { phase := "complete"
    sectionIndex := 0
    segmentIndex := 0
    sectionProgress := 1
    segmentProgress := 1
    activeStepId := ""
    currentText := ""
    emphasis := []
    globalTime := 0
    fromSection := none
    toSection := none
    transitionProgress := none }

/-- The fields of the `TimelineController` class (three-scene.ts lines
691–705). -/
structure TimelineController where
  currentTime : ℚ
  speed : ℚ
  playing : Bool
  rafId : Option ℕ
  lastTimestamp : Option ℚ
  listeners : List ℕ
  sectionScripts : List SectionScript
  transitions : List SectionTransition
  totalDuration : ℚ
  sectionStartTimes : List ℚ
  transitionStartTimes : List ℚ
  deriving DecidableEq, Repr

/-- The loop body of `computeStartTimes` (three-scene.ts lines 714–725):
walk the sections, pairing section `i` with transition `i` while one
exists; returns the two start-time lists. -/
def computeStartTimesAux : List SectionScript → List SectionTransition → ℚ →
    List ℚ × List ℚ
  | [], _, _ => ([], [])
  | sec :: secs, [], offset =>
    let rest := computeStartTimesAux secs [] (offset + sec.totalDuration)
    (offset :: rest.1, rest.2)
  | sec :: secs, t :: ts, offset =>
    let afterSec := offset + sec.totalDuration
    let rest := computeStartTimesAux secs ts (afterSec + t.duration)
    (offset :: rest.1, afterSec :: rest.2)

/-- The `TimelineController` constructor (three-scene.ts lines 707–712):
copy the script's parts and precompute the start-time tables. -/
def TimelineController.create (script : PresentationScript) : TimelineController :=
  let starts := computeStartTimesAux script.sections script.transitions 0
  { currentTime := 0
    speed := 1
    playing := false
    rafId := none
    lastTimestamp := none
    listeners := []
    sectionScripts := script.sections
    transitions := script.transitions
    totalDuration := script.totalDuration
    sectionStartTimes := starts.1
    transitionStartTimes := starts.2 }

/-- The segment scan of `getStateAtTime` (three-scene.ts lines 750–765):
first segment whose `[startTime, endTime)` contains the local time, else
the last segment; `none` only for an empty segment list (where the JS code
would crash reading `activeSegment.endTime` of `undefined`). -/
def findActiveSegment (sectionTime : ℚ) : List NarrationSegment → ℕ →
    Option (ℕ × NarrationSegment)
  | [], _ => none
  | [seg], s => some (s, seg)
  | seg :: rest, s =>
    if seg.startTime ≤ sectionTime ∧ sectionTime < seg.endTime then some (s, seg)
    else findActiveSegment sectionTime rest (s + 1)

/-- The section/transition scan of `getStateAtTime` (three-scene.ts lines
738–815), walking sections, transitions and the two precomputed start-time
tables in step (the constructor keeps them index-aligned).  The final
catch-all mirrors the "shouldn't reach here" fallback. -/
def scanSpans (t : ℚ) : List SectionScript → List SectionTransition →
    List ℚ → List ℚ → ℕ → Option TimelineState
  | [], _, _, _, _ => some { COMPLETE_STATE with globalTime := t }
  | _ :: _, _, [], _, _ => some { COMPLETE_STATE with globalTime := t }
  | script :: secs, remTrans, sectionStart :: sStarts, tStarts, i =>
    let sectionEnd := sectionStart + script.totalDuration
    if sectionStart ≤ t ∧ t < sectionEnd then
      let sectionTime := t - sectionStart
      let sectionProgress :=
        if script.totalDuration > 0 then sectionTime / script.totalDuration else 0
      match findActiveSegment sectionTime script.segments 0 with
      | none => none
      | some (segmentIndex, activeSegment) =>
        let segmentDuration := activeSegment.endTime - activeSegment.startTime
        let segmentProgress :=
          if segmentDuration > 0 then
            min 1 ((sectionTime - activeSegment.startTime) / segmentDuration)
          else 0
        some
          { phase := "section"
            sectionIndex := (i : ℤ)
            segmentIndex := segmentIndex
            sectionProgress := sectionProgress
            segmentProgress := segmentProgress
            activeStepId := activeSegment.stepId
            currentText := activeSegment.text
            emphasis := activeSegment.emphasis.getD []
            globalTime := t
            fromSection := none
            toSection := none
            transitionProgress := none }
    else
      match remTrans, tStarts with
      | transition :: trs, transitionStart :: tS =>
        let transitionEnd := transitionStart + transition.duration
        if transitionStart ≤ t ∧ t < transitionEnd then
          let transitionProgress :=
            if transition.duration > 0 then
              (t - transitionStart) / transition.duration
            else 0
          some
            { phase := "transition"
              sectionIndex := (i : ℤ)
              segmentIndex := 0
              sectionProgress := 1
              segmentProgress := 1
              activeStepId := ""
              currentText := ""
              emphasis := []
              globalTime := t
              fromSection := some i
              toSection := some (i + 1)
              transitionProgress := some transitionProgress }
        else scanSpans t secs trs sStarts tS (i + 1)
      | _, _ => scanSpans t secs remTrans sStarts tStarts (i + 1)

/-- `getStateAtTime` (three-scene.ts lines 727–816). -/
def TimelineController.getStateAtTime (c : TimelineController) (time : ℚ) :
    Option TimelineState :=
  if c.totalDuration ≤ time then
    some { COMPLETE_STATE with
      globalTime := c.totalDuration
      sectionIndex := (c.sectionScripts.length : ℤ) - 1 }
  else
    let clampedTime := max 0 time
    scanSpans clampedTime c.sectionScripts c.transitions c.sectionStartTimes
      c.transitionStartTimes 0

/-- `notify` (three-scene.ts lines 842–847): the state handed to every
listener. -/
def TimelineController.notify (c : TimelineController) : Option TimelineState :=
  c.getStateAtTime c.currentTime

/-- `tick` (three-scene.ts lines 818–840): one animation-frame callback.
Returns the updated controller and the delivered notification. -/
def TimelineController.tick (c : TimelineController) (timestamp : ℚ) :
    TimelineController × Option TimelineState :=
  let last := c.lastTimestamp.getD timestamp
  let delta := (timestamp - last) / 1000
  let newTime := c.currentTime + delta * c.speed
  if c.totalDuration ≤ newTime then
    let c' := { c with
      currentTime := c.totalDuration
      lastTimestamp := some timestamp
      playing := false
      rafId := none }
    (c', c'.notify)
  else
    let c' := { c with
      currentTime := newTime
      lastTimestamp := some timestamp
      rafId := if c.playing then some 0 else none }
    (c', c'.notify)

/-- `play` (three-scene.ts lines 849–857). -/
def TimelineController.play (c : TimelineController) : TimelineController :=
  if c.playing then c
  else
    { c with
      currentTime := if c.totalDuration ≤ c.currentTime then 0 else c.currentTime
      playing := true
      lastTimestamp := none
      rafId := some 0 }

/-- `pause` (three-scene.ts lines 859–866). -/
def TimelineController.pause (c : TimelineController) : TimelineController :=
  { c with playing := false, rafId := none, lastTimestamp := none }

/-- `seek` (three-scene.ts lines 868–872): clamp, reset the delta baseline
and notify synchronously.  Returns the updated controller together with the
synchronously delivered notification. -/
def TimelineController.seek (c : TimelineController) (time : ℚ) :
    TimelineController × Option TimelineState :=
  let c' := { c with
    currentTime := max 0 (min time c.totalDuration)
    lastTimestamp := none }
  (c', c'.notify)

/-- `setSpeed` (three-scene.ts lines 880–882). -/
def TimelineController.setSpeed (c : TimelineController) (speed : ℚ) :
    TimelineController :=
  { c with speed := speed }

/-- A run of the playback loop: before each frame the host may call
`setSpeed`, then the frame fires `tick`; the loop keeps running only while
`playing` holds (a stopped controller has no scheduled frame).  Each entry
of the result is one delivered notification. -/
def tickTrace : TimelineController → List (ℚ × ℚ) → List (Option TimelineState)
  | _, [] => []
  | c, (timestamp, speed) :: rest =>
    if c.playing then
      let stepped := (c.setSpeed speed).tick timestamp
      stepped.2 :: tickTrace stepped.1 rest
    else []

/-! ## KeyframeEngine (`src/src/lib/keyframes.ts`)

The engine is generic over a linear ordered field `K` (JavaScript numbers):
rational instances keep every statement decidable, while the easing curves
— which live in the external GSAP library, not in this repository — need
`ℝ`.  The two GSAP entry points the file calls, `gsap.parseEase` and
`gsap.utils.interpolate` (colors), are passed as explicit parameters
`parseEase` / `lerpColorF`; §4.2 of the design treats them as an external
collaborator. -/

section KeyframeEngine

variable {K : Type} [LinearOrderedField K]

/-- A `scale` property value: `number | [number, number, number]`. -/
inductive ScaleVal (K : Type) where
  | num (n : K)
  | triple (a b c : K)
  deriving DecidableEq, Repr

/-- `Keyframe` (types/index.ts lines 13–26). -/
structure Keyframe (K : Type) where
  time : K
  x : Option K := none
  y : Option K := none
  z : Option K := none
  rotateX : Option K := none
  rotateY : Option K := none
  rotateZ : Option K := none
  scale : Option (ScaleVal K) := none
  opacity : Option K := none
  color : Option String := none
  easing : Option String := none
  deriving DecidableEq, Repr

/-- `InterpolatedState` (keyframes.ts lines 50–62). -/
structure InterpolatedState (K : Type) where
  x : K
  y : K
  z : K
  rotateX : K
  rotateY : K
  rotateZ : K
  scaleX : K
  scaleY : K
  scaleZ : K
  opacity : K
  color : Option String := none
  deriving DecidableEq, Repr

/-- `easingAliases` (keyframes.ts lines 20–32). -/
def easingAliases : List (String × String) :=
  [("linear", "none"),
   ("easeIn", "power1.in"),
   ("easeOut", "power1.out"),
   ("easeInOut", "power2.inOut"),
   ("backOut", "back.out(1.7)"),
   ("cubicOut", "power3.out"),
   ("cubicInOut", "power3.inOut"),
   ("bounceOut", "bounce.out"),
   ("elasticOut", "elastic.out(1, 0.3)"),
   ("quadOut", "power1.out"),
   ("spring", "back.out(2.5)")]

/-- `easeProgress` (keyframes.ts lines 38–44), with `gsap.parseEase`
supplied as the parameter `parseEase` (`none` models GSAP returning a
falsy value for an unknown name).  `easingAliases[easing] || easing` falls
back to the raw name when the alias table has no (truthy) entry. -/
def easeProgress (parseEase : String → Option (K → K)) (progress : K)
    (easing : String) : K :=
  let clamped := max 0 (min 1 progress)
  let aliased := ((easingAliases.lookup easing).getD "")
  let gsapName := if aliased ≠ "" then aliased else easing
  match parseEase gsapName with
  | some easeFn => easeFn clamped
  | none => clamped

/-- `lerp` (keyframes.ts lines 86–88). -/
def lerp (a b t : K) : K := a + (b - a) * t

/-- `normalizeScale` (keyframes.ts lines 102–106). -/
def normalizeScale (s : Option (ScaleVal K)) (fallback : K) : K × K × K :=
  match s with
  | none => (fallback, fallback, fallback)
  | some (.num n) => (n, n, n)
  | some (.triple a b c) => (a, b, c)

/-- The state built from a single keyframe with every unspecified field
defaulted (0 for offsets/rotations, 1 for scale/opacity) — the block the
source repeats in its single-keyframe, before-first and after-last
branches (keyframes.ts lines 133–187). -/
def keyframeState (kf : Keyframe K) : InterpolatedState K :=
  let s := normalizeScale kf.scale 1
  { x := kf.x.getD 0
    y := kf.y.getD 0
    z := kf.z.getD 0
    rotateX := kf.rotateX.getD 0
    rotateY := kf.rotateY.getD 0
    rotateZ := kf.rotateZ.getD 0
    scaleX := s.1
    scaleY := s.2.1
    scaleZ := s.2.2
    opacity := kf.opacity.getD 1
    color := kf.color }

/-- The neutral default returned for an empty keyframe list (keyframes.ts
lines 120–127). -/
def emptyInterpolated : InterpolatedState K :=
  { x := 0, y := 0, z := 0
    rotateX := 0, rotateY := 0, rotateZ := 0
    scaleX := 1, scaleY := 1, scaleZ := 1
    opacity := 1
    color := none }

/-- The bracketing scan of `interpolateKeyframes` (keyframes.ts lines
190–196): first index `i` with `kfs[i].time ≤ p < kfs[i+1].time`, if any. -/
def findFromIdx (p : K) : List (Keyframe K) → ℕ → Option ℕ
  | kf1 :: kf2 :: rest, i =>
    if kf1.time ≤ p ∧ p < kf2.time then some i
    else findFromIdx p (kf2 :: rest) (i + 1)
  | _, _ => none

/-- An arbitrary keyframe used as the (unreachable) default of the indexed
accesses `keyframes[fromIdx]` / `keyframes[fromIdx + 1]`. -/
def dummyKeyframe : Keyframe K := { time := 0 }

/-- `interpolateKeyframes` (keyframes.ts lines 116–233). -/
def interpolateKeyframes (parseEase : String → Option (K → K))
    (lerpColorF : String → String → K → String)
    (keyframes : List (Keyframe K)) (progress : K) : InterpolatedState K :=
  match keyframes with
  | [] => emptyInterpolated
  | kf0 :: restKfs =>
    let p := max 0 (min 1 progress)
    match restKfs with
    | [] => keyframeState kf0
    | kf1 :: restKfs' =>
      let kfs := kf0 :: kf1 :: restKfs'
      let lastKf := kfs.getLast (by simp)
      if p ≤ kf0.time then keyframeState kf0
      else if lastKf.time ≤ p then keyframeState lastKf
      else
        let fromIdx := (findFromIdx p kfs 0).getD 0
        let fromKf := kfs.getD fromIdx dummyKeyframe
        let toKf := kfs.getD (fromIdx + 1) dummyKeyframe
        let segmentLength := toKf.time - fromKf.time
        let localProgress :=
          if segmentLength > 0 then (p - fromKf.time) / segmentLength else 0
        let easingName :=
          let e := fromKf.easing.getD ""
          if e ≠ "" then e else "easeInOut"
        let eased := easeProgress parseEase localProgress easingName
        let fromScale := normalizeScale fromKf.scale 1
        let toScale := normalizeScale toKf.scale 1
        let fromColor := fromKf.color.getD ""
        let toColor := toKf.color.getD ""
        { x := lerp (fromKf.x.getD 0) (toKf.x.getD (fromKf.x.getD 0)) eased
          y := lerp (fromKf.y.getD 0) (toKf.y.getD (fromKf.y.getD 0)) eased
          z := lerp (fromKf.z.getD 0) (toKf.z.getD (fromKf.z.getD 0)) eased
          rotateX := lerp (fromKf.rotateX.getD 0)
            (toKf.rotateX.getD (fromKf.rotateX.getD 0)) eased
          rotateY := lerp (fromKf.rotateY.getD 0)
            (toKf.rotateY.getD (fromKf.rotateY.getD 0)) eased
          rotateZ := lerp (fromKf.rotateZ.getD 0)
            (toKf.rotateZ.getD (fromKf.rotateZ.getD 0)) eased
          scaleX := lerp fromScale.1 toScale.1 eased
          scaleY := lerp fromScale.2.1 toScale.2.1 eased
          scaleZ := lerp fromScale.2.2 toScale.2.2 eased
          opacity := lerp (fromKf.opacity.getD 1)
            (toKf.opacity.getD (fromKf.opacity.getD 1)) eased
          color :=
            if fromColor ≠ "" ∧ toColor ≠ "" then
              some (lerpColorF fromColor toColor eased)
            else if toColor ≠ "" then some toColor
            else fromKf.color }

end KeyframeEngine

/-! ## The GSAP easing curves (external library)

`gsap.parseEase` lives in the `gsap` npm package, outside this repository.
Modelled from the spec: §4.2 prescribes a table of named curves, exact at
the endpoints, with overshooting back/elastic-style curves and a `none`
(identity) curve; the formulas are the standard GSAP 3 core eases for the
names reachable from `easingAliases` and from the curve names the analysis
prompt advertises (`power2.inOut`, `back.out(1.7)`, `elastic.out(1, 0.3)`).
Every other name is unrecognized (`none`). -/

/-- GSAP `powerN.in`: `p ^ (N + 1)`. -/
noncomputable def gsapPowerIn (n : ℕ) : ℝ → ℝ := fun p => p ^ (n + 1)

/-- GSAP `powerN.out`: `1 - (1 - p) ^ (N + 1)`. -/
noncomputable def gsapPowerOut (n : ℕ) : ℝ → ℝ := fun p => 1 - (1 - p) ^ (n + 1)

/-- GSAP `powerN.inOut`. -/
noncomputable def gsapPowerInOut (n : ℕ) : ℝ → ℝ := fun p =>
  if p < 1 / 2 then (2 * p) ^ (n + 1) / 2 else 1 - (2 * (1 - p)) ^ (n + 1) / 2

/-- GSAP `back.out(s)`: `(p-1)^2 * ((s+1)*(p-1) + s) + 1`. -/
noncomputable def gsapBackOut (s : ℝ) : ℝ → ℝ := fun p =>
  (p - 1) * (p - 1) * ((s + 1) * (p - 1) + s) + 1

/-- GSAP `bounce.out` (constants 7.5625 and 2.75). -/
noncomputable def gsapBounceOut : ℝ → ℝ := fun p =>
  if p < 1 / 2.75 then 7.5625 * p * p
  else if p < 2 / 2.75 then 7.5625 * (p - 1.5 / 2.75) ^ 2 + 0.75
  else if p < 2.5 / 2.75 then 7.5625 * (p - 2.25 / 2.75) ^ 2 + 0.9375
  else 7.5625 * (p - 2.625 / 2.75) ^ 2 + 0.984375

/-- GSAP `elastic.out(a, period)` for `a ≥ 1`:
`a * 2^(-10p) * sin((p - p3) * 2π/period) + 1` away from `p = 1`, where
`p3 = period/(2π) * arcsin(1/a)`. -/
noncomputable def gsapElasticOut (a period : ℝ) : ℝ → ℝ := fun p =>
  if p = 1 then 1
  else
    let p3 := period / (2 * Real.pi) * Real.arcsin (1 / a)
    a * (2 : ℝ) ^ (-(10 : ℝ) * p) * Real.sin ((p - p3) * (2 * Real.pi / period)) + 1

/-- Modelled from the spec: the GSAP ease lookup (`gsap.parseEase`), which
is external library code (§4.2's easing-curve table).  Recognizes exactly
the canonical curve names this repository can reach and yields `none`
(GSAP's falsy result) otherwise. -/
noncomputable def gsapParseEase : String → Option (ℝ → ℝ) := fun name =>
  if name = "none" then some (fun p => p)
  else if name = "power1.in" then some (gsapPowerIn 1)
  else if name = "power1.out" then some (gsapPowerOut 1)
  else if name = "power2.inOut" then some (gsapPowerInOut 2)
  else if name = "power3.out" then some (gsapPowerOut 3)
  else if name = "power3.inOut" then some (gsapPowerInOut 3)
  else if name = "back.out(1.7)" then some (gsapBackOut 1.7)
  else if name = "back.out(2.5)" then some (gsapBackOut 2.5)
  else if name = "bounce.out" then some gsapBounceOut
  else if name = "elastic.out(1, 0.3)" then some (gsapElasticOut 1 0.3)
  else none

/-! ## Concrete inputs used by the scenario theorems and witnesses -/

/-- A narration segment spanning `[s, e)` with neutral metadata. -/
def mkSeg (s e : ℚ) (i : String) : NarrationSegment :=
  { id := i, text := "text-" ++ i, stepId := "step-" ++ i
    estimatedDuration := e - s, startTime := s, endTime := e
    emphasis := none, pacing := "normal" }

/-- Scenario A of §8: two sections of 10s and 8s joined by one 2s
transition, total 20s. -/
def scenarioA : PresentationScript :=
  { paperTitle := "paper"
    sections :=
      [{ sectionId := "a", fullText := "", segments := [mkSeg 0 10 "a1"]
         totalDuration := 10 },
       { sectionId := "b", fullText := "", segments := [mkSeg 0 8 "b1"]
         totalDuration := 8 }]
    transitions :=
      [{ fromSectionId := "a", toSectionId := "b", type := "crossfade"
         duration := 2 }]
    totalDuration := 20 }

/-- The degenerate script with no sections at all (a zero-duration
timeline, §7). -/
def emptyScript : PresentationScript :=
  { paperTitle := "", sections := [], transitions := [], totalDuration := 0 }

/-- A presentation consisting of a single section and no transitions. -/
def singleSectionScript (sec : SectionScript) : PresentationScript :=
  { paperTitle := "", sections := [sec], transitions := []
    totalDuration := sec.totalDuration }

/-- A section with two contiguous segments `[0,3)`, `[3,6)`. -/
def sectionBoundary : SectionScript :=
  { sectionId := "c", fullText := "", segments := [mkSeg 0 3 "c1", mkSeg 3 6 "c2"]
    totalDuration := 6 }

/-- A section with three contiguous segments `[0,3)`, `[3,6)`, `[6,9)`
(Scenario B of §8). -/
def sectionThree : SectionScript :=
  { sectionId := "d", fullText := ""
    segments := [mkSeg 0 3 "d1", mkSeg 3 6 "d2", mkSeg 6 9 "d3"]
    totalDuration := 9 }

/-! ## Theorems -/

/-- **C10**: `seek(t)` only changes the accumulated current time (to the
clamp of `t` into `[0, totalDuration]`) and the tick delta baseline; the
playing flag, speed, subscriber set, frame handle, script data and the
precomputed start-offset tables are untouched.  In particular seeking
never starts or stops playback. -/
theorem seek_frame_effect (c : TimelineController) (t : ℚ) :
    ((c.seek t).1.playing = c.playing) ∧
    ((c.seek t).1.speed = c.speed) ∧
    ((c.seek t).1.listeners = c.listeners) ∧
    ((c.seek t).1.rafId = c.rafId) ∧
    ((c.seek t).1.sectionScripts = c.sectionScripts) ∧
    ((c.seek t).1.transitions = c.transitions) ∧
    ((c.seek t).1.totalDuration = c.totalDuration) ∧
    ((c.seek t).1.sectionStartTimes = c.sectionStartTimes) ∧
    ((c.seek t).1.transitionStartTimes = c.transitionStartTimes) ∧
    ((c.seek t).1.currentTime = max 0 (min t c.totalDuration)) ∧
    ((c.seek t).1.lastTimestamp = none) :=
  ⟨rfl, rfl, rfl, rfl, rfl, rfl, rfl, rfl, rfl, rfl, rfl⟩

/-- **C5**: on Scenario A (sections of 10s and 8s, one 2s transition,
total 20s), `getStateAtTime(10.5)` reports the transition phase from
section 0 to section 1 at progress 1/4. -/
theorem scenarioA_midtransition :
    ((TimelineController.create scenarioA).getStateAtTime (21/2)).map
        (fun st => (st.phase, st.fromSection, st.toSection, st.transitionProgress)) =
      some ("transition", some 0, some 1, some (1/4)) := by
  norm_num [TimelineController.create, TimelineController.getStateAtTime,
    computeStartTimesAux, scanSpans, findActiveSegment, COMPLETE_STATE,
    scenarioA, mkSeg]

/-- **C3** (amended): `getStateAtTime` for `t ≥ totalDuration` returns the
terminal state pinned at `totalDuration` (with `sectionIndex` the last
section's index); and — provided the timeline has positive total duration —
a negative `t` is clamped, i.e. `getStateAtTime t = getStateAtTime 0`.
(The positivity proviso is needed: on a zero-duration script the two calls
take different branches, see the counterexample.) -/
theorem getStateAtTime_out_of_range (script : PresentationScript) (t : ℚ) :
    (script.totalDuration ≤ t →
      (TimelineController.create script).getStateAtTime t =
        some { COMPLETE_STATE with
          globalTime := script.totalDuration
          sectionIndex := (script.sections.length : ℤ) - 1 }) ∧
    (t < 0 → 0 < script.totalDuration →
      (TimelineController.create script).getStateAtTime t =
        (TimelineController.create script).getStateAtTime 0) := by
  constructor
  · intro h
    simp only [TimelineController.getStateAtTime, TimelineController.create]
    rw [if_pos h]
  · intro ht h0
    simp only [TimelineController.getStateAtTime, TimelineController.create]
    rw [if_neg (by simpa using not_le.mpr (ht.trans h0)),
        if_neg (by simpa using not_le.mpr h0)]
    have : max 0 t = max 0 (0 : ℚ) := by
      rw [max_eq_left ht.le, max_self]
    rw [this]

/-- **C3 counterexample**: on the empty script (no sections, zero total
duration) `getStateAtTime (-1)` takes the scan fallback (`sectionIndex 0`)
while `getStateAtTime 0` takes the terminal branch (`sectionIndex -1`), so
the claim's unconditional "`t < 0` equals time 0" fails. -/
theorem getStateAtTime_out_of_range_counterexample :
    ((TimelineController.create emptyScript).getStateAtTime (-1)).map
        (fun st => st.sectionIndex) = some 0 ∧
    ((TimelineController.create emptyScript).getStateAtTime 0).map
        (fun st => st.sectionIndex) = some (-1) ∧
    (TimelineController.create emptyScript).getStateAtTime (-1) ≠
      (TimelineController.create emptyScript).getStateAtTime 0 := by
  refine ⟨?_, ?_, ?_⟩ <;>
    norm_num [TimelineController.create, TimelineController.getStateAtTime,
      computeStartTimesAux, scanSpans, COMPLETE_STATE, emptyScript,
      TimelineState.mk.injEq]

/-- **C3 witness**: the amended theorem applied to Scenario A at `t = 25`
and `t = -5`. -/
theorem getStateAtTime_out_of_range_witness :
    ((TimelineController.create scenarioA).getStateAtTime 25 =
      some { COMPLETE_STATE with
        globalTime := scenarioA.totalDuration
        sectionIndex := (scenarioA.sections.length : ℤ) - 1 }) ∧
    (TimelineController.create scenarioA).getStateAtTime (-5) =
      (TimelineController.create scenarioA).getStateAtTime 0 :=
  ⟨(getStateAtTime_out_of_range scenarioA 25).1 (by norm_num [scenarioA]),
   (getStateAtTime_out_of_range scenarioA (-5)).2 (by norm_num)
     (by norm_num [scenarioA])⟩

/-- **C2** (amended): with an empty steps list, `alignSegmentsToSteps`
passes the input's *segments* through unchanged, but the other fields of
the result are rebuilt: `sectionId` and `fullText` are taken from the
`sectionId` / `narration` arguments and `totalDuration` is reset to 0 —
they need not equal the input script's fields. -/
theorem alignSegmentsToSteps_empty_steps (script : SectionScript)
    (ad : AnimationData) (narration sectionId sectionTitle sectionConcept : String)
    (h : ad.steps = []) :
    alignSegmentsToSteps script ad narration sectionId sectionTitle sectionConcept =
      { sectionId := sectionId
        fullText := narration
        segments := script.segments
        totalDuration := 0 } := by
  simp only [alignSegmentsToSteps]
  rw [if_pos h]

/-- **C2 counterexample**: with zero steps the repairer is *not* a no-op:
on an input script with `totalDuration = 5` the output has
`totalDuration = 0` (and the output's `fullText` tracks the `narration`
argument, not the script), so the output differs from the input. -/
theorem alignSegmentsToSteps_empty_steps_counterexample :
    (alignSegmentsToSteps
        { sectionId := "s", fullText := "hello", segments := [], totalDuration := 5 }
        { type := "css", steps := [] } ("other") ("s") ("T") ("C")).totalDuration = 0 ∧
    (alignSegmentsToSteps
        { sectionId := "s", fullText := "hello", segments := [], totalDuration := 5 }
        { type := "css", steps := [] } ("other") ("s") ("T") ("C")) ≠
      { sectionId := "s", fullText := "hello", segments := [], totalDuration := 5 } := by
  refine ⟨?_, ?_⟩ <;>
    norm_num [alignSegmentsToSteps, SectionScript.mk.injEq]

/-- **C2 witness**: the amended theorem applied to a concrete script with
zero steps. -/
theorem alignSegmentsToSteps_empty_steps_witness :
    alignSegmentsToSteps
        { sectionId := "s", fullText := "hello", segments := [], totalDuration := 5 }
        { type := "css", steps := [] } ("other") ("s2") ("T") ("C") =
      { sectionId := "s2"
        fullText := "other"
        segments :=
          SectionScript.segments
            { sectionId := "s", fullText := "hello", segments := [], totalDuration := 5 }
        totalDuration := 0 } :=
  alignSegmentsToSteps_empty_steps _ _ _ _ _ _ rfl

/-! ### C4: the start-offset tables tile `[0, totalDuration)` -/

/-- Alternate two lists starting with the first (section₀, transition₀,
section₁, transition₁, …): the playback order of the precomputed spans. -/
def interleave {α : Type} : List α → List α → List α
  | [], _ => []
  | x :: xs, ys => x :: interleave ys xs
termination_by xs ys => xs.length + ys.length

/-- The `(start, duration)` spans of a controller, in playback order:
sections interleaved with transitions, using the precomputed start-time
tables. -/
def TimelineController.spans (c : TimelineController) : List (ℚ × ℚ) :=
  interleave
    (c.sectionStartTimes.zip (c.sectionScripts.map SectionScript.totalDuration))
    (c.transitionStartTimes.zip (c.transitions.map SectionTransition.duration))

/-- `Tiles a spans b`: the spans exactly tile the interval from `a` to `b` —
the first span starts at `a`, every span starts where the previous one
ends (no gaps, no overlaps), and the last span ends at `b`. -/
inductive Tiles : ℚ → List (ℚ × ℚ) → ℚ → Prop
  | nil (a : ℚ) : Tiles a [] a
  | cons {a b d : ℚ} {rest : List (ℚ × ℚ)}
      (h : Tiles (a + d) rest b) : Tiles a ((a, d) :: rest) b

theorem Tiles.congr_right {a b b' : ℚ} {l : List (ℚ × ℚ)}
    (h : Tiles a l b) (hb : b = b') : Tiles a l b' := hb ▸ h

theorem computeStartTimesAux_tiles :
    ∀ (secs : List SectionScript) (trans : List SectionTransition) (offset : ℚ),
    trans.length = secs.length - 1 →
    Tiles offset
      (interleave
        ((computeStartTimesAux secs trans offset).1.zip
          (secs.map SectionScript.totalDuration))
        ((computeStartTimesAux secs trans offset).2.zip
          (trans.map SectionTransition.duration)))
      (offset + (secs.map SectionScript.totalDuration).sum +
        (trans.map SectionTransition.duration).sum) := by
  intro secs
  induction secs with
  | nil =>
    intro trans offset hlen
    obtain rfl : trans = [] := List.length_eq_zero.mp (by simpa using hlen)
    simpa [computeStartTimesAux, interleave] using Tiles.nil offset
  | cons sec secs ih =>
    intro trans offset hlen
    cases secs with
    | nil =>
      obtain rfl : trans = [] := List.length_eq_zero.mp (by simpa using hlen)
      simpa [computeStartTimesAux, interleave] using
        Tiles.cons (Tiles.nil (offset + sec.totalDuration))
    | cons sec2 secs2 =>
      cases trans with
      | nil => simp at hlen
      | cons t trans' =>
        have hlen' : trans'.length = (sec2 :: secs2).length - 1 := by
          simpa using hlen
        have key := ih trans' (offset + sec.totalDuration + t.duration) hlen'
        refine @Tiles.congr_right offset
          (offset + sec.totalDuration + t.duration +
            ((sec2 :: secs2).map SectionScript.totalDuration).sum +
            (trans'.map SectionTransition.duration).sum) _ _ ?_ ?_
        · simp only [computeStartTimesAux, interleave, List.map_cons,
            List.zip_cons_cons]
          exact Tiles.cons (Tiles.cons key)
        · simp only [List.map_cons, List.sum_cons]
          ring

/-- **C4**: under the data-model invariant
(`transitions.length = sections.length - 1` and `totalDuration` the sum of
all section and transition durations), the section/transition spans
precomputed at construction tile `[0, totalDuration)` exactly: section 0
starts at 0, each span starts where the previous one ends, and the last
span ends at `totalDuration`. -/
theorem create_spans_tile (script : PresentationScript)
    (hlen : script.transitions.length = script.sections.length - 1)
    (hdur : script.totalDuration =
      (script.sections.map SectionScript.totalDuration).sum +
      (script.transitions.map SectionTransition.duration).sum) :
    Tiles 0 (TimelineController.create script).spans script.totalDuration := by
  have key := computeStartTimesAux_tiles script.sections script.transitions 0 hlen
  exact Tiles.congr_right key (by rw [hdur]; ring)

/-- **C4 witness**: the tiling theorem applied to Scenario A
(spans `[0,10) ∪ [10,12) ∪ [12,20)` tiling `[0,20)`). -/
theorem create_spans_tile_witness :
    Tiles 0 (TimelineController.create scenarioA).spans scenarioA.totalDuration :=
  create_spans_tile scenarioA (by norm_num [scenarioA])
    (by norm_num [scenarioA])

/-! ### C6: exact segment boundaries -/

/-- `SegChain a segs b`: the segments are contiguous and of positive
length, the first starting at `a` and the last ending at `b` — the §3
invariant "sorted, contiguous, covering `[0, totalDuration)`" for
`a = 0`, `b = totalDuration`. -/
inductive SegChain : ℚ → List NarrationSegment → ℚ → Prop
  | nil (a : ℚ) : SegChain a [] a
  | cons {a b : ℚ} {seg : NarrationSegment} {rest : List NarrationSegment}
      (hstart : seg.startTime = a) (hlt : a < seg.endTime)
      (hrest : SegChain seg.endTime rest b) : SegChain a (seg :: rest) b

theorem SegChain.start_le_end {a b : ℚ} {segs : List NarrationSegment}
    (h : SegChain a segs b) : a ≤ b := by
  induction h with
  | nil => exact le_rfl
  | cons hstart hlt _ ih => exact le_trans hlt.le ih

theorem SegChain.lt_end {a b : ℚ} {segs : List NarrationSegment}
    (h : SegChain a segs b) :
    ∀ (j : ℕ) (hj : j < segs.length), a < (segs.get ⟨j, hj⟩).endTime := by
  induction h with
  | nil => intro j hj; simp at hj
  | cons hstart hlt hrest ih =>
    intro j hj
    cases j with
    | zero => simpa using hlt
    | succ j' =>
      have := ih j' (by simpa using hj)
      calc _ < _ := hlt
        _ < _ := this

theorem SegChain.end_le {a b : ℚ} {segs : List NarrationSegment}
    (h : SegChain a segs b) :
    ∀ (j : ℕ) (hj : j < segs.length), (segs.get ⟨j, hj⟩).endTime ≤ b := by
  induction h with
  | nil => intro j hj; simp at hj
  | cons hstart hlt hrest ih =>
    intro j hj
    cases j with
    | zero => simpa using hrest.start_le_end
    | succ j' => simpa using ih j' (by simpa using hj)

theorem SegChain.start_lt_end {a b : ℚ} {segs : List NarrationSegment}
    (h : SegChain a segs b) :
    ∀ (j : ℕ) (hj : j < segs.length),
      (segs.get ⟨j, hj⟩).startTime < (segs.get ⟨j, hj⟩).endTime := by
  induction h with
  | nil => intro j hj; simp at hj
  | cons hstart hlt hrest ih =>
    intro j hj
    cases j with
    | zero => simpa [hstart] using hlt
    | succ j' => simpa using ih j' (by simpa using hj)

theorem SegChain.start_succ {a b : ℚ} {segs : List NarrationSegment}
    (h : SegChain a segs b) :
    ∀ (j : ℕ) (hj : j + 1 < segs.length),
      (segs.get ⟨j + 1, hj⟩).startTime =
        (segs.get ⟨j, Nat.lt_of_succ_lt hj⟩).endTime := by
  induction h with
  | nil => intro j hj; simp at hj
  | cons hstart hlt hrest ih =>
    intro j hj
    cases j with
    | zero =>
      cases hrest with
      | nil => simp at hj
      | cons hstart2 hlt2 hrest2 => simpa using hstart2
    | succ j' => simpa using ih j' (by simpa using hj)

/-- At the exact boundary between segments `i` and `i + 1` of a contiguous
positive chain, the scan of `getStateAtTime` picks segment `i + 1`: the
half-open `[startTime, endTime)` test rejects segment `i` and accepts its
successor. -/
theorem findActiveSegment_boundary :
    ∀ (segs : List NarrationSegment) (a b : ℚ) (i k : ℕ),
      SegChain a segs b → ∀ (h1 : i + 1 < segs.length),
      findActiveSegment ((segs.get ⟨i, Nat.lt_of_succ_lt h1⟩).endTime) segs k =
        some (k + (i + 1), segs.get ⟨i + 1, h1⟩) := by
  intro segs
  induction segs with
  | nil => intro a b i k _ h1; simp at h1
  | cons seg rest ih =>
    intro a b i k hchain h1
    cases hchain with
    | cons hstart hlt hrest =>
      cases i with
      | zero =>
        cases rest with
        | nil => simp at h1
        | cons seg2 rest2 =>
          have hstart2 : seg2.startTime = seg.endTime := by
            cases hrest with
            | cons hs hl hr => exact hs
          have hlt2 : seg.endTime < seg2.endTime := by
            cases hrest with
            | cons hs hl hr => exact hl
          cases rest2 with
          | nil =>
            simp only [List.get, findActiveSegment]
            rw [if_neg (by simp)]
          | cons seg3 rest3 =>
            simp only [List.get, findActiveSegment]
            rw [if_neg (by simp), if_pos ⟨hstart2.le.trans le_rfl, hlt2⟩]
      | succ j =>
        have hj : j + 1 < rest.length := by simpa using h1
        have hend : seg.endTime < (rest.get ⟨j, Nat.lt_of_succ_lt hj⟩).endTime :=
          hrest.lt_end j (Nat.lt_of_succ_lt hj)
        cases rest with
        | nil => simp at hj
        | cons seg2 rest2 =>
          have key := ih seg.endTime b j (k + 1) hrest hj
          have harith : k + 1 + (j + 1) = k + (j + 1 + 1) := by omega
          rw [harith] at key
          simp only [List.get_cons_succ] at key ⊢
          rw [findActiveSegment, if_neg (by
            intro hc
            exact absurd hc.2 (not_lt.mpr hend.le))]
          · exact key
          · simp

/-- **C6** (amended): in a single-section presentation whose segments are
sorted, contiguous, positive and cover `[0, totalDuration)`, the state at
an interior segment boundary `segments[i].endTime = segments[i+1].startTime`
resolves to the **later** segment: `segmentIndex = i + 1` (the half-open
interval test assigns the boundary instant to the segment that starts
there, not to the one that ends there). -/
theorem boundary_resolves_to_later (sec : SectionScript) (i : ℕ)
    (hchain : SegChain 0 sec.segments sec.totalDuration)
    (h1 : i + 1 < sec.segments.length) :
    ((TimelineController.create (singleSectionScript sec)).getStateAtTime
        ((sec.segments.get ⟨i, Nat.lt_of_succ_lt h1⟩).endTime)).map
      (fun st => (st.phase, st.segmentIndex)) = some ("section", i + 1) := by
  set localT := (sec.segments.get ⟨i, Nat.lt_of_succ_lt h1⟩).endTime with hlocal
  have h0lt : 0 < localT := hchain.lt_end i (Nat.lt_of_succ_lt h1)
  have hless : localT < sec.totalDuration := by
    have hs := hchain.start_succ i h1
    calc localT = (sec.segments.get ⟨i + 1, h1⟩).startTime :=
          (hs.trans hlocal.symm).symm
      _ < (sec.segments.get ⟨i + 1, h1⟩).endTime := hchain.start_lt_end (i + 1) h1
      _ ≤ sec.totalDuration := hchain.end_le (i + 1) h1
  have hscan := findActiveSegment_boundary sec.segments 0 sec.totalDuration i 0
    hchain h1
  simp only [TimelineController.getStateAtTime, TimelineController.create,
    singleSectionScript, computeStartTimesAux]
  rw [if_neg (not_le.mpr hless)]
  have hclamp : max 0 localT = localT := max_eq_right h0lt.le
  rw [hclamp]
  simp only [scanSpans]
  rw [if_pos ⟨h0lt.le, by simpa using hless⟩]
  rw [show localT - 0 = localT from sub_zero localT, hscan]
  simp

/-- **C6 counterexample**: segments `[0,3)`, `[3,6)` (sorted, contiguous,
covering `[0,6)`), at the interior boundary `local = 3 =
segments[0].endTime = segments[1].startTime` (segment 0 is not the last):
`getStateAtTime` yields `segmentIndex = 1`, not the claimed earlier
segment `0`. -/
theorem boundary_resolves_counterexample :
    SegChain 0 sectionBoundary.segments sectionBoundary.totalDuration ∧
    ((TimelineController.create (singleSectionScript sectionBoundary)).getStateAtTime 3).map
        (fun st => st.segmentIndex) = some 1 ∧
    ((TimelineController.create (singleSectionScript sectionBoundary)).getStateAtTime 3).map
        (fun st => st.segmentIndex) ≠ some 0 := by
  refine ⟨?_, ?_, ?_⟩
  · exact SegChain.cons rfl (by norm_num [sectionBoundary, mkSeg])
      (SegChain.cons (by norm_num [sectionBoundary, mkSeg])
        (by norm_num [sectionBoundary, mkSeg]) (SegChain.nil 6))
  · norm_num [TimelineController.create, TimelineController.getStateAtTime,
      computeStartTimesAux, scanSpans, findActiveSegment, COMPLETE_STATE,
      singleSectionScript, sectionBoundary, mkSeg]
  · norm_num [TimelineController.create, TimelineController.getStateAtTime,
      computeStartTimesAux, scanSpans, findActiveSegment, COMPLETE_STATE,
      singleSectionScript, sectionBoundary, mkSeg]

/-- **C6 witness**: the amended theorem applied to the three-segment
section at the boundary between segments 1 and 2 (`local = 6`). -/
theorem boundary_resolves_witness :
    ((TimelineController.create (singleSectionScript sectionThree)).getStateAtTime
        ((sectionThree.segments.get ⟨1, by norm_num [sectionThree]⟩).endTime)).map
      (fun st => (st.phase, st.segmentIndex)) = some ("section", 2) :=
  boundary_resolves_to_later sectionThree 1
    (SegChain.cons rfl (by norm_num [sectionThree, mkSeg])
      (SegChain.cons (by norm_num [sectionThree, mkSeg])
        (by norm_num [sectionThree, mkSeg])
        (SegChain.cons (by norm_num [sectionThree, mkSeg])
          (by norm_num [sectionThree, mkSeg]) (SegChain.nil 9))))
    (by norm_num [sectionThree])

/-! ### C1: repaired segment lists are aligned and non-empty -/

theorem mem_dropWhile_of_mem {α : Type} (p : α → Bool) :
    ∀ (l : List α) (c : α), c ∈ l → p c = false → c ∈ l.dropWhile p := by
  intro l
  induction l with
  | nil => intro c hc; simp at hc
  | cons x xs ih =>
    intro c hc hpc
    by_cases hx : p x = true
    · rw [List.dropWhile_cons_of_pos hx]
      rcases List.mem_cons.mp hc with rfl | hmem
      · rw [hpc] at hx; exact absurd hx (by simp)
      · exact ih c hmem hpc
    · rw [List.dropWhile_cons_of_neg hx]
      exact hc

theorem mem_trimChars_of_mem {l : List Char} {c : Char}
    (hc : c ∈ l) (hw : c.isWhitespace = false) : c ∈ trimChars l := by
  unfold trimChars
  rw [List.mem_reverse]
  apply mem_dropWhile_of_mem _ _ _ _ hw
  rw [List.mem_reverse]
  exact mem_dropWhile_of_mem _ _ _ hc hw

theorem mem_squeeze_of_mem {l : List Char} {c : Char}
    (hc : c ∈ l) (hw : c.isWhitespace = false) :
    ∀ b, c ∈ squeezeAux b l := by
  induction l with
  | nil => simp at hc
  | cons x xs ih =>
    intro b
    rcases List.mem_cons.mp hc with rfl | hmem
    · simp only [squeezeAux, hw]
      simp
    · by_cases hx : x.isWhitespace
      · simp only [squeezeAux, hx, if_true]
        by_cases hb : b
        · rw [if_pos hb]; exact ih hmem true
        · rw [if_neg hb]; exact List.mem_cons_of_mem _ (ih hmem true)
      · simp only [squeezeAux, hx, if_false]
        exact List.mem_cons_of_mem _ (ih hmem false)

theorem exists_not_ws_of_trimChars_ne_nil {l : List Char}
    (h : trimChars l ≠ []) : ∃ c ∈ l, c.isWhitespace = false := by
  by_contra hall
  push_neg at hall
  have hdrop : l.dropWhile Char.isWhitespace = [] :=
    List.dropWhile_eq_nil_iff.mpr fun x hx => by simpa using hall x hx
  unfold trimChars at h
  rw [hdrop] at h
  simp at h

theorem string_mk_ne_empty {l : List Char} (h : l ≠ []) :
    (⟨l⟩ : String) ≠ "" := by
  intro heq
  exact h (by simpa using congrArg String.data heq)

theorem ensureSentence_ne_empty {s : String}
    (h : ∃ c ∈ s.data, c.isWhitespace = false) : ensureSentence s ≠ "" := by
  obtain ⟨c, hc, hw⟩ := h
  have h2 : c ∈ trimChars (squeeze s.data) :=
    mem_trimChars_of_mem (mem_squeeze_of_mem hc hw false) hw
  have h3 : trimChars (squeeze s.data) ≠ [] := List.ne_nil_of_mem h2
  have h4 : capitalizeChars (trimChars (squeeze s.data)) ≠ [] := by
    cases htr : trimChars (squeeze s.data) with
    | nil => exact absurd htr h3
    | cons a as => simp [capitalizeChars]
  unfold ensureSentence
  dsimp only
  rw [if_neg h3]
  split
  · exact string_mk_ne_empty h4
  · exact string_mk_ne_empty (by simp)

theorem mem_data_append_left {s t : String} {c : Char} (h : c ∈ s.data) :
    c ∈ (s ++ t).data := by
  rw [String.data_append]
  exact List.mem_append_left _ h

theorem sentence_mem_has_char {s t : String}
    (hs : s ∈ splitIntoSentences t) : ∃ c ∈ s.data, c.isWhitespace = false := by
  unfold splitIntoSentences at hs
  split at hs
  · simp at hs
  · rw [List.mem_filter] at hs
    obtain ⟨hmap, hne⟩ := hs
    rw [List.mem_map] at hmap
    obtain ⟨u, _, rfl⟩ := hmap
    have hne' : collapseTrim u ≠ "" := by simpa using hne
    have hdata : trimChars (squeeze u.data) ≠ [] := by
      intro hnil
      exact hne' (by simp [collapseTrim, hnil])
    obtain ⟨c, hc, hw⟩ := exists_not_ws_of_trimChars_ne_nil hdata
    exact ⟨c, mem_trimChars_of_mem hc hw, hw⟩

theorem buildSegmentNarrationCore_ne_empty (step : AnimationStep)
    (sectionConcept sectionTitle : String) (stepIndex : ℕ) :
    buildSegmentNarrationCore step sectionConcept sectionTitle stepIndex ≠ "" := by
  unfold buildSegmentNarrationCore
  rcases hres : extractStepHighlights step with _ | ⟨h1, _ | ⟨h2, hs⟩⟩
  · simp only
    split
    · next hdesc =>
      exact ensureSentence_ne_empty (exists_not_ws_of_trimChars_ne_nil hdesc)
    · refine ensureSentence_ne_empty ⟨'S', ?_, by decide⟩
      exact mem_data_append_left (mem_data_append_left
        (mem_data_append_left (mem_data_append_left (by decide))))
  · refine ensureSentence_ne_empty ⟨'W', ?_, by decide⟩
    exact mem_data_append_left (mem_data_append_left
      (mem_data_append_left (mem_data_append_left (by decide))))
  · refine ensureSentence_ne_empty ⟨'W', ?_, by decide⟩
    exact mem_data_append_left (mem_data_append_left (mem_data_append_left
      (mem_data_append_left (mem_data_append_left
        (mem_data_append_left (by decide))))))

theorem buildSegmentNarration_ne_empty (step : AnimationStep)
    (fallback : Option String) (sectionConcept sectionTitle : String)
    (stepIndex : ℕ)
    (hfb : ∀ s, fallback = some s → s ≠ "" →
      ∃ c ∈ s.data, c.isWhitespace = false) :
    buildSegmentNarration step fallback sectionConcept sectionTitle stepIndex ≠ "" := by
  cases fallback with
  | none =>
    unfold buildSegmentNarration
    exact buildSegmentNarrationCore_ne_empty _ _ _ _
  | some s =>
    unfold buildSegmentNarration
    dsimp only
    by_cases hse : s = ""
    · rw [if_neg (by simpa using hse)]
      exact buildSegmentNarrationCore_ne_empty _ _ _ _
    · rw [if_pos hse]
      exact ensureSentence_ne_empty (hfb s rfl hse)

/-- **C1**: whenever the steps list is non-empty, `alignSegmentsToSteps`
returns a script with exactly one segment per step, every segment text
non-empty. -/
theorem alignSegmentsToSteps_aligned (script : SectionScript)
    (ad : AnimationData)
    (narration sectionId sectionTitle sectionConcept : String)
    (h : ad.steps ≠ []) :
    (alignSegmentsToSteps script ad narration sectionId sectionTitle
        sectionConcept).segments.length = ad.steps.length ∧
    ∀ seg ∈ (alignSegmentsToSteps script ad narration sectionId sectionTitle
        sectionConcept).segments, seg.text ≠ "" := by
  unfold alignSegmentsToSteps
  rw [if_neg h]
  constructor
  · simp
  · intro seg hseg
    simp only [List.mem_map] at hseg
    obtain ⟨⟨idx, step⟩, hmem, rfl⟩ := hseg
    apply buildSegmentNarration_ne_empty
    intro s hs hne
    exact sentence_mem_has_char (List.get?_mem hs)

/-- The raw-input animation data used by the C1 witness: two steps, the
first with highlight-worthy elements, the second bare. -/
def adA : AnimationData :=
  { type := "css"
    steps :=
      [{ id := "step-1", description := "desc one", duration := 4
         elements :=
           [{ type := "shape", content := some (.str "Core Concept"), label := none },
            { type := "arrow", content := some (.str "leads to"), label := none },
            { type := "highlight", content := some (.str "Key finding"), label := none }] },
       { id := "step-2", description := "", duration := 0, elements := [] }] }

/-- The raw (degenerate) script repaired in the C1 witness. -/
def rawA : SectionScript :=
  { sectionId := "s1", fullText := "Intro", segments := [], totalDuration := 0 }

/-- The repaired output used by the C1 witness. -/
def alignedA : SectionScript :=
  alignSegmentsToSteps rawA adA ("Intro") ("s1") ("Title") ("concept c")

/-- **C1 witness**: the theorem applied to a concrete two-step raw input
(one usable narration sentence, one synthesized segment). -/
theorem alignSegmentsToSteps_aligned_witness :
    alignedA.segments.length = adA.steps.length ∧
    (alignedA.segments.map NarrationSegment.text).all (fun t => !(t = "")) = true :=
  ⟨(alignSegmentsToSteps_aligned rawA adA ("Intro") ("s1") ("Title")
      ("concept c") (by simp [adA])).1,
   by
    have h := (alignSegmentsToSteps_aligned rawA adA ("Intro") ("s1") ("Title")
      ("concept c") (by simp [adA])).2
    rw [List.all_eq_true]
    intro t ht
    rw [List.mem_map] at ht
    obtain ⟨seg, hseg, rfl⟩ := ht
    simpa using h seg hseg⟩

/-! ### C7: keyframe interpolation clamps at the track boundaries -/

/-- **C7** (amended): for a non-empty keyframe list, clamped progress at or
before the first keyframe's time yields exactly the first keyframe's
fields (defaults filled in); clamped progress **strictly after** the first
keyframe's time and at or past the last keyframe's time yields the last
keyframe's fields.  In particular, with times inside `[0,1]`,
`interpolateKeyframes kfs 0` is the first keyframe and — provided the
first keyframe's time is strictly below 1 — `interpolateKeyframes kfs 1`
is the last.  (The strictness provisos are forced: when the first and last
times coincide with the progress value, the first keyframe wins, see the
counterexample.) -/
theorem interpolateKeyframes_boundary_clamp {K : Type} [LinearOrderedField K]
    (parseEase : String → Option (K → K))
    (lerpColorF : String → String → K → String)
    (kf0 : Keyframe K) (rest : List (Keyframe K)) (p : K) :
    (max 0 (min 1 p) ≤ kf0.time →
      interpolateKeyframes parseEase lerpColorF (kf0 :: rest) p =
        keyframeState kf0) ∧
    (kf0.time < max 0 (min 1 p) →
      ((kf0 :: rest).getLast (by simp)).time ≤ max 0 (min 1 p) →
      interpolateKeyframes parseEase lerpColorF (kf0 :: rest) p =
        keyframeState ((kf0 :: rest).getLast (by simp))) ∧
    (0 ≤ kf0.time →
      interpolateKeyframes parseEase lerpColorF (kf0 :: rest) 0 =
        keyframeState kf0) ∧
    (kf0.time < 1 → ((kf0 :: rest).getLast (by simp)).time ≤ 1 →
      interpolateKeyframes parseEase lerpColorF (kf0 :: rest) 1 =
        keyframeState ((kf0 :: rest).getLast (by simp))) := by
  have hc0 : max 0 (min 1 (0 : K)) = 0 := by
    rw [min_eq_right (by norm_num : (0 : K) ≤ 1), max_self]
  have hc1 : max 0 (min 1 (1 : K)) = 1 := by
    rw [min_self, max_eq_right (by norm_num : (0 : K) ≤ 1)]
  refine ⟨?_, ?_, ?_, ?_⟩
  · intro h
    cases rest with
    | nil => rfl
    | cons kf1 rest' =>
      unfold interpolateKeyframes
      dsimp only
      rw [if_pos h]
  · intro h1 h2
    cases rest with
    | nil => rfl
    | cons kf1 rest' =>
      unfold interpolateKeyframes
      dsimp only
      rw [if_neg (not_le.mpr h1), if_pos h2]
  · intro h
    cases rest with
    | nil => rfl
    | cons kf1 rest' =>
      unfold interpolateKeyframes
      dsimp only
      rw [hc0, if_pos h]
  · intro h1 h2
    cases rest with
    | nil => rfl
    | cons kf1 rest' =>
      unfold interpolateKeyframes
      dsimp only
      rw [hc1, if_neg (not_le.mpr h1), if_pos h2]

/-- The trivial stand-in for `gsap.parseEase` used on concrete rational
inputs (no curve recognized — linear fallback). -/
def trivialParseEase : String → Option (ℚ → ℚ) := fun _ => none

/-- The trivial stand-in for `gsap.utils.interpolate` on colors. -/
def trivialLerpColor : String → String → ℚ → String := fun c1 _ _ => c1

/-- First keyframe of the tie counterexample: `time 1/2`, `opacity 0`. -/
def tieA : Keyframe ℚ := { time := 1/2, opacity := some 0 }

/-- Second keyframe of the tie counterexample: `time 1/2`, `opacity 1`. -/
def tieB : Keyframe ℚ := { time := 1/2, opacity := some 1 }

/-- **C7 counterexample**: with two keyframes at the same time `1/2` and
progress `1/2`, the claim's "at or after the last keyframe's time ⇒ last
keyframe's fields" fails: the code's first branch wins and returns the
*first* keyframe's fields (`opacity 0`, not `1`). -/
theorem interpolateKeyframes_tie_counterexample :
    (tieB.time ≤ max 0 (min 1 ((1 : ℚ)/2))) ∧
    interpolateKeyframes trivialParseEase trivialLerpColor [tieA, tieB] (1/2) =
      keyframeState tieA ∧
    interpolateKeyframes trivialParseEase trivialLerpColor [tieA, tieB] (1/2) ≠
      keyframeState tieB := by
  refine ⟨by norm_num [tieB], ?_, ?_⟩
  · norm_num [interpolateKeyframes, tieA, tieB]
  · norm_num [interpolateKeyframes, keyframeState, normalizeScale, tieA, tieB,
      InterpolatedState.mk.injEq]

/-- The two-keyframe track of §8 Scenario D. -/
def kfD0 : Keyframe ℚ := { time := 0, x := some 0, opacity := some 0 }

/-- Second Scenario-D keyframe. -/
def kfD1 : Keyframe ℚ := { time := 1, x := some 100, opacity := some 1 }

/-- **C7 witness**: the amended theorem applied to the Scenario-D track at
progress 0 and 1. -/
theorem interpolateKeyframes_boundary_witness :
    interpolateKeyframes trivialParseEase trivialLerpColor [kfD0, kfD1] 0 =
      keyframeState kfD0 ∧
    interpolateKeyframes trivialParseEase trivialLerpColor [kfD0, kfD1] 1 =
      keyframeState ([kfD0, kfD1].getLast (by simp)) :=
  ⟨(interpolateKeyframes_boundary_clamp trivialParseEase trivialLerpColor
      kfD0 [kfD1] 0).2.2.1 (by norm_num [kfD0]),
   (interpolateKeyframes_boundary_clamp trivialParseEase trivialLerpColor
      kfD0 [kfD1] 1).2.2.2 (by norm_num [kfD0]) (by norm_num [kfD0, kfD1])⟩

/-! ### C8: every supported easing curve is exact at the endpoints -/

/-- The legacy easing names accepted via `easingAliases`. -/
def legacyEasingNames : List String := easingAliases.map Prod.fst

/-- The canonical GSAP curve names this repository can reach. -/
def gsapCurveNames : List String :=
  ["none", "power1.in", "power1.out", "power2.inOut", "power3.out",
   "power3.inOut", "back.out(1.7)", "back.out(2.5)", "bounce.out",
   "elastic.out(1, 0.3)"]

theorem easeProgress_gsap_resolved {f : ℝ → ℝ} {name target : String}
    (halias : ((easingAliases.lookup name).getD "") = target)
    (hne : ¬ target = "") (hparse : gsapParseEase target = some f) (p : ℝ) :
    easeProgress gsapParseEase p name = f (max 0 (min 1 p)) := by
  unfold easeProgress
  dsimp only
  rw [halias, if_pos hne, hparse]

theorem easeProgress_gsap_direct {f : ℝ → ℝ} {name : String}
    (halias : easingAliases.lookup name = none)
    (hparse : gsapParseEase name = some f) (p : ℝ) :
    easeProgress gsapParseEase p name = f (max 0 (min 1 p)) := by
  unfold easeProgress
  dsimp only
  rw [halias]
  dsimp only [Option.getD]
  rw [if_neg (by simp), hparse]

theorem easeProgress_gsap_fallback {name : String}
    (halias : easingAliases.lookup name = none)
    (hparse : gsapParseEase name = none) (p : ℝ) :
    easeProgress gsapParseEase p name = max 0 (min 1 p) := by
  unfold easeProgress
  dsimp only
  rw [halias]
  dsimp only [Option.getD]
  rw [if_neg (by simp), hparse]

theorem clamp01_zero : max 0 (min 1 (0 : ℝ)) = 0 := by norm_num
theorem clamp01_one : max 0 (min 1 (1 : ℝ)) = 1 := by norm_num

theorem gsapPowerIn_endpoints (n : ℕ) :
    gsapPowerIn n 0 = 0 ∧ gsapPowerIn n 1 = 1 := by
  unfold gsapPowerIn; norm_num

theorem gsapPowerOut_endpoints (n : ℕ) :
    gsapPowerOut n 0 = 0 ∧ gsapPowerOut n 1 = 1 := by
  unfold gsapPowerOut; norm_num

theorem gsapPowerInOut_endpoints (n : ℕ) :
    gsapPowerInOut n 0 = 0 ∧ gsapPowerInOut n 1 = 1 := by
  unfold gsapPowerInOut
  constructor
  · rw [if_pos (by norm_num)]; norm_num
  · rw [if_neg (by norm_num)]; norm_num

theorem gsapBackOut_endpoints (s : ℝ) :
    gsapBackOut s 0 = 0 ∧ gsapBackOut s 1 = 1 := by
  unfold gsapBackOut
  constructor <;> ring

theorem gsapBounceOut_endpoints :
    gsapBounceOut 0 = 0 ∧ gsapBounceOut 1 = 1 := by
  unfold gsapBounceOut
  constructor
  · rw [if_pos (by norm_num)]; norm_num
  · rw [if_neg (by norm_num), if_neg (by norm_num), if_neg (by norm_num)]
    norm_num

theorem gsapElasticOut_endpoints :
    gsapElasticOut 1 0.3 0 = 0 ∧ gsapElasticOut 1 0.3 1 = 1 := by
  unfold gsapElasticOut
  constructor
  · rw [if_neg (by norm_num)]
    dsimp only
    have hπ : Real.pi ≠ 0 := Real.pi_ne_zero
    have harcsin : Real.arcsin (1 / 1) = Real.pi / 2 := by
      norm_num [Real.arcsin_one]
    rw [harcsin]
    have harg : ((0 : ℝ) - 0.3 / (2 * Real.pi) * (Real.pi / 2)) *
        (2 * Real.pi / 0.3) = -(Real.pi / 2) := by
      field_simp
      ring
    rw [harg, Real.sin_neg, Real.sin_pi_div_two,
      show (-(10 : ℝ) * 0) = 0 by ring, Real.rpow_zero]
    norm_num
  · rw [if_pos rfl]

/-- Both endpoints of a curve reached through the alias table. -/
theorem easeAliasedEndpoints (target : String) (f : ℝ → ℝ) {name : String}
    (halias : ((easingAliases.lookup name).getD "") = target)
    (hne : ¬ target = "") (hparse : gsapParseEase target = some f)
    (h0 : f 0 = 0) (h1 : f 1 = 1) :
    easeProgress gsapParseEase (0 : ℝ) name = 0 ∧
    easeProgress gsapParseEase (1 : ℝ) name = 1 := by
  constructor
  · rw [easeProgress_gsap_resolved halias hne hparse, clamp01_zero, h0]
  · rw [easeProgress_gsap_resolved halias hne hparse, clamp01_one, h1]

/-- Both endpoints of a curve named directly by its GSAP name. -/
theorem easeDirectEndpoints (f : ℝ → ℝ) {name : String}
    (halias : easingAliases.lookup name = none)
    (hparse : gsapParseEase name = some f)
    (h0 : f 0 = 0) (h1 : f 1 = 1) :
    easeProgress gsapParseEase (0 : ℝ) name = 0 ∧
    easeProgress gsapParseEase (1 : ℝ) name = 1 := by
  constructor
  · rw [easeProgress_gsap_direct halias hparse, clamp01_zero, h0]
  · rw [easeProgress_gsap_direct halias hparse, clamp01_one, h1]

/-- **C8**: every supported easing name — each legacy alias and each
recognized GSAP curve name — satisfies `easeProgress(0) = 0` and
`easeProgress(1) = 1` exactly; every unrecognized name falls back to the
identity on the clamped progress. -/
theorem easeProgress_exact_endpoints :
    (∀ name ∈ legacyEasingNames,
      easeProgress gsapParseEase (0 : ℝ) name = 0 ∧
      easeProgress gsapParseEase (1 : ℝ) name = 1) ∧
    (∀ name ∈ gsapCurveNames,
      easeProgress gsapParseEase (0 : ℝ) name = 0 ∧
      easeProgress gsapParseEase (1 : ℝ) name = 1) ∧
    (∀ name, easingAliases.lookup name = none → gsapParseEase name = none →
      ∀ p : ℝ, easeProgress gsapParseEase p name = max 0 (min 1 p)) := by
  refine ⟨?_, ?_, fun name h1 h2 p => easeProgress_gsap_fallback h1 h2 p⟩
  · intro name hname
    fin_cases hname
    · exact easeAliasedEndpoints ("none") (fun p => p) (by decide) (by decide) rfl
        rfl rfl
    · exact easeAliasedEndpoints ("power1.in") (gsapPowerIn 1) (by decide) (by decide) rfl
        (gsapPowerIn_endpoints 1).1 (gsapPowerIn_endpoints 1).2
    · exact easeAliasedEndpoints ("power1.out") (gsapPowerOut 1) (by decide) (by decide) rfl
        (gsapPowerOut_endpoints 1).1 (gsapPowerOut_endpoints 1).2
    · exact easeAliasedEndpoints ("power2.inOut") (gsapPowerInOut 2) (by decide) (by decide) rfl
        (gsapPowerInOut_endpoints 2).1 (gsapPowerInOut_endpoints 2).2
    · exact easeAliasedEndpoints ("back.out(1.7)") (gsapBackOut 1.7) (by decide) (by decide) rfl
        (gsapBackOut_endpoints 1.7).1 (gsapBackOut_endpoints 1.7).2
    · exact easeAliasedEndpoints ("power3.out") (gsapPowerOut 3) (by decide) (by decide) rfl
        (gsapPowerOut_endpoints 3).1 (gsapPowerOut_endpoints 3).2
    · exact easeAliasedEndpoints ("power3.inOut") (gsapPowerInOut 3) (by decide) (by decide) rfl
        (gsapPowerInOut_endpoints 3).1 (gsapPowerInOut_endpoints 3).2
    · exact easeAliasedEndpoints ("bounce.out") gsapBounceOut (by decide) (by decide) rfl
        gsapBounceOut_endpoints.1 gsapBounceOut_endpoints.2
    · exact easeAliasedEndpoints ("elastic.out(1, 0.3)") (gsapElasticOut 1 0.3) (by decide) (by decide) rfl
        gsapElasticOut_endpoints.1 gsapElasticOut_endpoints.2
    · exact easeAliasedEndpoints ("power1.out") (gsapPowerOut 1) (by decide) (by decide) rfl
        (gsapPowerOut_endpoints 1).1 (gsapPowerOut_endpoints 1).2
    · exact easeAliasedEndpoints ("back.out(2.5)") (gsapBackOut 2.5) (by decide) (by decide) rfl
        (gsapBackOut_endpoints 2.5).1 (gsapBackOut_endpoints 2.5).2
  · intro name hname
    fin_cases hname
    · exact easeDirectEndpoints (fun p => p) (by decide) rfl
        rfl rfl
    · exact easeDirectEndpoints (gsapPowerIn 1) (by decide) rfl
        (gsapPowerIn_endpoints 1).1 (gsapPowerIn_endpoints 1).2
    · exact easeDirectEndpoints (gsapPowerOut 1) (by decide) rfl
        (gsapPowerOut_endpoints 1).1 (gsapPowerOut_endpoints 1).2
    · exact easeDirectEndpoints (gsapPowerInOut 2) (by decide) rfl
        (gsapPowerInOut_endpoints 2).1 (gsapPowerInOut_endpoints 2).2
    · exact easeDirectEndpoints (gsapPowerOut 3) (by decide) rfl
        (gsapPowerOut_endpoints 3).1 (gsapPowerOut_endpoints 3).2
    · exact easeDirectEndpoints (gsapPowerInOut 3) (by decide) rfl
        (gsapPowerInOut_endpoints 3).1 (gsapPowerInOut_endpoints 3).2
    · exact easeDirectEndpoints (gsapBackOut 1.7) (by decide) rfl
        (gsapBackOut_endpoints 1.7).1 (gsapBackOut_endpoints 1.7).2
    · exact easeDirectEndpoints (gsapBackOut 2.5) (by decide) rfl
        (gsapBackOut_endpoints 2.5).1 (gsapBackOut_endpoints 2.5).2
    · exact easeDirectEndpoints gsapBounceOut (by decide) rfl
        gsapBounceOut_endpoints.1 gsapBounceOut_endpoints.2
    · exact easeDirectEndpoints (gsapElasticOut 1 0.3) (by decide) rfl
        gsapElasticOut_endpoints.1 gsapElasticOut_endpoints.2

/-- **C8 witness**: the endpoint theorem applied to the alias `easeInOut`
and the fallback applied to the unrecognized name `bogus` at progress 2. -/
theorem easeProgress_exact_endpoints_witness :
    (easeProgress gsapParseEase (0 : ℝ) ("easeInOut") = 0 ∧
      easeProgress gsapParseEase (1 : ℝ) ("easeInOut") = 1) ∧
    easeProgress gsapParseEase (2 : ℝ) ("bogus") = max 0 (min 1 (2 : ℝ)) :=
  ⟨easeProgress_exact_endpoints.1 ("easeInOut") (by decide),
   easeProgress_exact_endpoints.2.2 ("bogus") (by decide) rfl 2⟩

/-! ### C9: notifications observe non-decreasing global time while playing -/

/-- Pointwise `≤` on optional delivered times (`none` — a notification the
JS code would have crashed on — constrains nothing). -/
def optLe (a b : Option ℚ) : Prop := ∀ x ∈ a, ∀ y ∈ b, x ≤ y

/-- Every state produced by the span scan carries the scanned time as its
`globalTime`. -/
theorem scanSpans_globalTime (t : ℚ) :
    ∀ (secs : List SectionScript) (trans : List SectionTransition)
      (ss ts : List ℚ) (i : ℕ) (st : TimelineState),
      scanSpans t secs trans ss ts i = some st → st.globalTime = t := by
  intro secs
  induction secs with
  | nil =>
    intro trans ss ts i st h
    rw [scanSpans] at h
    obtain rfl := Option.some.inj h
    rfl
  | cons sec secs ih =>
    intro trans ss ts i st h
    cases ss with
    | nil =>
      rw [scanSpans] at h
      obtain rfl := Option.some.inj h
      rfl
    | cons s0 ss' =>
      rcases trans with _ | ⟨tr, trs⟩
      · simp only [scanSpans] at h
        split at h
        · cases hfa : findActiveSegment (t - s0) sec.segments 0 with
          | none =>
            rw [hfa] at h
            exact absurd h (by simp)
          | some pr =>
            obtain ⟨idx, seg⟩ := pr
            rw [hfa] at h
            dsimp only at h
            obtain rfl := Option.some.inj h
            rfl
        · exact ih _ _ _ _ _ h
      · rcases ts with _ | ⟨t0, tS⟩
        · simp only [scanSpans] at h
          split at h
          · cases hfa : findActiveSegment (t - s0) sec.segments 0 with
            | none =>
              rw [hfa] at h
              exact absurd h (by simp)
            | some pr =>
              obtain ⟨idx, seg⟩ := pr
              rw [hfa] at h
              dsimp only at h
              obtain rfl := Option.some.inj h
              rfl
          · exact ih _ _ _ _ _ h
        · simp only [scanSpans] at h
          split at h
          · cases hfa : findActiveSegment (t - s0) sec.segments 0 with
            | none =>
              rw [hfa] at h
              exact absurd h (by simp)
            | some pr =>
              obtain ⟨idx, seg⟩ := pr
              rw [hfa] at h
              dsimp only at h
              obtain rfl := Option.some.inj h
              rfl
          · split at h
            · obtain rfl := Option.some.inj h
              rfl
            · exact ih _ _ _ _ _ h

/-- The `globalTime` of any state `getStateAtTime` returns: the total
duration past the end, the clamped query time otherwise. -/
theorem getStateAtTime_globalTime (c : TimelineController) (t : ℚ)
    (st : TimelineState) (h : c.getStateAtTime t = some st) :
    st.globalTime =
      if c.totalDuration ≤ t then c.totalDuration else max 0 t := by
  unfold TimelineController.getStateAtTime at h
  split at h
  · next htot =>
    rw [if_pos htot]
    obtain rfl := Option.some.inj h
    rfl
  · next htot =>
    rw [if_neg htot]
    exact scanSpans_globalTime _ _ _ _ _ _ _ h

/-- A stopped controller never ticks again. -/
theorem tickTrace_not_playing {c : TimelineController}
    (h : c.playing = false) : ∀ l, tickTrace c l = [] := by
  intro l
  cases l with
  | nil => rfl
  | cons q rest =>
    obtain ⟨ts, v⟩ := q
    rw [tickTrace, h]
    simp

/-- Core induction for C9: starting from a controller whose accumulated
time lies within `[0, totalDuration]`, with a fresh or coherent delta
baseline, non-decreasing timestamps and nonnegative speeds, the delivered
global times form a non-decreasing chain, and every first delivery is at
least the starting accumulated time. -/
theorem tickTrace_mono_aux :
    ∀ (l : List (ℚ × ℚ)) (c : TimelineController),
      0 ≤ c.currentTime → c.currentTime ≤ c.totalDuration →
      (∀ q ∈ l, 0 ≤ q.2) →
      List.Chain' (· ≤ ·) (c.lastTimestamp.toList ++ l.map Prod.fst) →
      List.Chain' optLe ((tickTrace c l).map (Option.map TimelineState.globalTime)) ∧
      ∀ y ∈ ((tickTrace c l).map (Option.map TimelineState.globalTime)).head?,
        optLe (some c.currentTime) y := by
  intro l
  induction l with
  | nil =>
    intro c _ _ _ _
    exact ⟨List.chain'_nil, by simp [tickTrace]⟩
  | cons q rest ih =>
    intro c h0 h1 hsp hts
    obtain ⟨ts, v⟩ := q
    by_cases hp : c.playing
    · rw [tickTrace, if_pos hp]
      have hv : 0 ≤ v := hsp (ts, v) (List.mem_cons_self _ _)
      have hdelta : 0 ≤ (ts - (c.lastTimestamp.getD ts)) / 1000 := by
        cases hlast : c.lastTimestamp with
        | none => simp
        | some l0 =>
          have hl0 : l0 ≤ ts := by
            rw [hlast] at hts
            simp only [Option.toList_some, List.singleton_append,
              List.map_cons] at hts
            exact (List.chain'_cons.mp hts).1
          exact div_nonneg (by simp only [Option.getD_some]; linarith) (by norm_num)
      have hstep : c.currentTime ≤
          c.currentTime + (ts - (c.lastTimestamp.getD ts)) / 1000 * v := by
        nlinarith
      set newT := c.currentTime + (ts - (c.lastTimestamp.getD ts)) / 1000 * v
        with hnewT
      have htail : List.Chain' (· ≤ ·) (ts :: rest.map Prod.fst) := by
        cases hlast : c.lastTimestamp with
        | none => simpa [hlast] using hts
        | some l0 =>
          rw [hlast] at hts
          simp only [Option.toList_some, List.singleton_append,
            List.map_cons] at hts
          exact hts.tail
      rw [TimelineController.tick]
      simp only [TimelineController.setSpeed]
      by_cases hend : c.totalDuration ≤ newT
      · rw [if_pos (by simpa using hend)]
        dsimp only
        rw [tickTrace_not_playing rfl rest]
        refine ⟨List.chain'_singleton _, ?_⟩
        intro y hy x hx z hz
        simp only [List.map_cons, List.map_nil, List.head?_cons,
          Option.mem_def, Option.some.injEq] at hy
        subst hy
        simp only [Option.mem_def, Option.some.injEq] at hx
        subst hx
        simp only [Option.mem_def, Option.map_eq_some'] at hz
        obtain ⟨st, hst, rfl⟩ := hz
        have := getStateAtTime_globalTime _ _ _ hst
        simp only [le_refl, if_true] at this
        rw [this]
        exact h1
      · rw [if_neg (by simpa using hend)]
        dsimp only
        have hrec := ih
          { c with
            speed := v
            currentTime := newT
            lastTimestamp := some ts
            rafId := if c.playing = true then some 0 else none }
          (le_trans h0 hstep) (le_of_not_le hend)
          (fun q hq => hsp q (List.mem_cons_of_mem _ hq))
          (by simpa using htail)
        refine ⟨List.chain'_cons'.mpr ⟨?_, hrec.1⟩, ?_⟩
        · intro y hy x hx z hz
          simp only [Option.mem_def, Option.map_eq_some'] at hx
          obtain ⟨st, hst, rfl⟩ := hx
          have hgt := getStateAtTime_globalTime _ _ _ hst
          simp only [TimelineController.notify] at hst
          have hx' : st.globalTime = newT := by
            rw [hgt, if_neg hend, max_eq_right (le_trans h0 hstep)]
          rw [hx']
          exact hrec.2 y hy _ rfl z hz
        · intro y hy x hx z hz
          simp only [List.map_cons, List.head?_cons, Option.mem_def,
            Option.some.injEq] at hy
          subst hy
          simp only [Option.mem_def, Option.some.injEq] at hx
          subst hx
          simp only [Option.mem_def, Option.map_eq_some'] at hz
          obtain ⟨st, hst, rfl⟩ := hz
          have hgt := getStateAtTime_globalTime _ _ _ hst
          rw [hgt, if_neg hend, max_eq_right (le_trans h0 hstep)]
          exact hstep
    · rw [tickTrace, if_neg hp]
      exact ⟨List.chain'_nil, by simp⟩

/-- **C9** (amended): while playing — from an accumulated time inside
`[0, totalDuration]`, with non-decreasing tick timestamps (coherent with
the recorded delta baseline) and nonnegative speed multipliers set through
`setSpeed` — the states delivered by successive ticks have non-decreasing
`globalTime`; and `seek`'s own notification is produced synchronously
within the call, as the state at the clamped seek time.  (Nonnegative
speed is necessary: a negative multiplier moves the delivered time
backwards between two ticks with no intervening seek, see the
counterexample.) -/
theorem playing_globalTime_monotone (c : TimelineController)
    (l : List (ℚ × ℚ)) (t : ℚ)
    (h0 : 0 ≤ c.currentTime) (h1 : c.currentTime ≤ c.totalDuration)
    (hsp : ∀ q ∈ l, 0 ≤ q.2)
    (hts : List.Chain' (· ≤ ·) (c.lastTimestamp.toList ++ l.map Prod.fst)) :
    List.Chain' optLe
      ((tickTrace c l).map (Option.map TimelineState.globalTime)) ∧
    (c.seek t).2 = c.getStateAtTime (max 0 (min t c.totalDuration)) :=
  ⟨(tickTrace_mono_aux l c h0 h1 hsp hts).1, rfl⟩

/-- Scenario A, started. -/
def playingA : TimelineController := (TimelineController.create scenarioA).play

/-- Scenario A, started and sought to `t = 10`. -/
def seeked10 : TimelineController := (playingA.seek 10).1

/-- **C9 counterexample**: with speed `-1` set via `setSpeed`, two
successive ticks of a playing controller (no seek in between) deliver
global times `10` then `9` — a strict decrease, so the claim's "every
speed multiplier" fails. -/
theorem playing_globalTime_monotone_counterexample :
    seeked10.playing = true ∧
    (tickTrace seeked10 [(0, -1), (1000, -1)]).map
        (Option.map TimelineState.globalTime) = [some 10, some 9] ∧
    ¬ ((10 : ℚ) ≤ 9) := by
  refine ⟨rfl, ?_, by norm_num⟩
  norm_num [tickTrace, TimelineController.tick, TimelineController.setSpeed,
    seeked10, playingA, TimelineController.seek, TimelineController.play,
    TimelineController.notify, TimelineController.create,
    TimelineController.getStateAtTime, scanSpans, findActiveSegment,
    computeStartTimesAux, scenarioA, mkSeg, COMPLETE_STATE]

/-- **C9 witness**: the amended theorem applied to the started Scenario-A
controller with three coherent ticks and a seek to `t = 3`. -/
theorem playing_globalTime_monotone_witness :
    List.Chain' optLe
      ((tickTrace playingA [(0, 1), (500, 1), (1500, 2)]).map
        (Option.map TimelineState.globalTime)) ∧
    (playingA.seek 3).2 =
      playingA.getStateAtTime (max 0 (min 3 playingA.totalDuration)) :=
  playing_globalTime_monotone playingA [(0, 1), (500, 1), (1500, 2)] 3
    (by norm_num [playingA, TimelineController.play, TimelineController.create,
      scenarioA])
    (by norm_num [playingA, TimelineController.play, TimelineController.create,
      scenarioA])
    (by norm_num)
    (by norm_num [playingA, TimelineController.play, TimelineController.create,
      scenarioA])

end PaperAnimate
